import Mathlib

/-!
Shallow embedding of the kafka-serves event pipeline (Go sources) and proofs
about its messaging core: the transactional producer (`pkg/kafka` producer
file), the consumer framework and middlewares (`pkg/kafka` consumer and
`middleware.go`), the underwriting pricing handler
(`services/underwriting/handler.go`) and the billing handler
(`services/billing/handler.go`).

Modelling conventions:
* Go `float64` arithmetic on money and risk factors is embedded as exact
  rational arithmetic over `ℚ`; `math.Round` is half-away-from-zero rounding
  and Go's `int(x)` conversion is truncation toward zero, both embedded
  explicitly below.
* `time.Time` values are instants in integer nanoseconds (`ℤ`); the Go zero
  time is `0`; `time.Duration` arithmetic is integer nanosecond arithmetic.
* Go's `error` return is `Option GoErr` (`none` = `nil` = success).
* JSON wire bytes are embedded symbolically: a message value either decodes
  to an envelope or is malformed (`WireValue`).
* Each handler invocation evaluates all its `time.Now()` calls at one
  instant, passed in as `now`; `uuid.New()` is passed in as a fresh string.
-/

namespace KafkaServes

/-- A scalar JSON value as seen through Go type assertions: JSON numbers
decode to `float64` (here `ℚ`), JSON strings to `string`; every other shape
(`bool`, `null`, nested object or array) only matters through the fact that
the `.(float64)` / `.(string)` assertions fail on it, so it is collapsed
into `other`. -/
inductive JLeaf where
  | num (q : ℚ)
  | str (s : String)
  | other
  deriving DecidableEq

/-- A value of the schemaless `event_data` mapping: either a scalar or a
JSON object of scalars (the shape the handlers project `event_data["policy"]`
into via the `.(map[string]interface{})` assertion). -/
inductive JVal where
  | leaf (l : JLeaf)
  | obj (fields : List (String × JLeaf))
  deriving DecidableEq

/-- Go map indexing `m[k]`: the value at key `k`, if present (keys are
unique in a Go map; the embedding reads the first binding). -/
def jlookup {α : Type} : List (String × α) → String → Option α
  | [], _ => none
  | p :: rest, k => if p.1 = k then some p.2 else jlookup rest k

/-- The `v.(map[string]interface{})` type assertion on an optional
`event_data` entry: succeeds exactly on a JSON object. -/
def asObj (v : Option JVal) : Option (List (String × JLeaf)) :=
  match v with
  | some (JVal.obj fields) => some fields
  | _ => none

/-- Go `math.Round`: round to the nearest integer, half away from zero. -/
def goRound (q : ℚ) : ℤ :=
  if 0 ≤ q then ⌊q + 1/2⌋ else -⌊-q + 1/2⌋

/-- The expression `math.Round(x*100)/100`: round to 2 decimal places, half away from
zero (the underwriting handler's final rounding step). -/
def round2 (q : ℚ) : ℚ :=
  ((goRound (q * 100) : ℤ) : ℚ) / 100

/-- Go's `int(x)` conversion on a float: truncation toward zero. -/
def goTruncInt (q : ℚ) : ℤ :=
  if 0 ≤ q then ⌊q⌋ else -⌊-q⌋

/-- The expression `float64(int(x*100))/100`: truncate to 2 decimal places toward zero
(the billing handler's refund rounding step). -/
def trunc2 (q : ℚ) : ℚ :=
  ((goTruncInt (q * 100) : ℤ) : ℚ) / 100

/-- A Go `error` value as the middleware distinguishes them:
`context.Canceled`, `context.DeadlineExceeded`, or any other error
(wrapped decode failures, DB failures, broker failures, ...),
identified by its message. -/
inductive GoErr where
  | canceled
  | deadlineExceeded
  | other (msg : String)
  deriving DecidableEq

/-- Function `isRetryableError` from `pkg/kafka/middleware.go`: every error is
retryable except `context.Canceled` and `context.DeadlineExceeded`. -/
def isRetryableError (e : GoErr) : Bool :=
  match e with
  | GoErr.canceled => false
  | GoErr.deadlineExceeded => false
  | GoErr.other _ => true

/-- The `PolicyEvent` envelope (producer file): id, policy id, event type,
schemaless event data, origin timestamp, provenance. -/
structure PolicyEvent where
  id : String
  policy_id : String
  event_type : String
  event_data : List (String × JVal)
  timestamp : ℤ
  source : String
  version : String
  deriving DecidableEq

/-- The wire bytes of a consumer message value: `encoded e` stands for
bytes that `json.Unmarshal` decodes into the envelope `e`, `malformed`
for bytes on which `json.Unmarshal` fails. -/
inductive WireValue where
  | encoded (e : PolicyEvent)
  | malformed (raw : String)
  deriving DecidableEq

/-- The call `json.Unmarshal(message.Value, &event)` as both handlers perform it. -/
def decodePolicyEvent (v : WireValue) : Option PolicyEvent :=
  match v with
  | WireValue.encoded e => some e
  | WireValue.malformed _ => none

/-! ## Underwriting: premium calculation (`services/underwriting/handler.go`) -/

/-- The call `math.Pow(1.3, accidents)` at the integer exponents the pipeline uses
(`accidents_count` is an event count; `q.num = q` whenever `q` is an
integer, which is the rational-model restriction of the real-valued
`math.Pow`). -/
def powAccidents (q : ℚ) : ℚ :=
  ((13 : ℚ)/10) ^ q.num

/-- Result of `calculatePremium`: base premium, accumulated risk score, the
echoed risk factors, and the rounded final premium (the serialized
`RiskFactorsJSON` carries the same data as `riskFactors`). -/
structure PremiumCalculation where
  basePremium : ℚ
  riskScore : ℚ
  riskFactors : List (String × JLeaf)
  finalPremium : ℚ
  deriving DecidableEq

/-- The `driver_age` block of `calculatePremium`: on a numeric value,
record the factor and multiply the risk score (`< 25 → ×1.5`,
`> 65 → ×1.2`, otherwise `×0.9`); otherwise leave the accumulator alone. -/
def driverAgeStep (pd : List (String × JLeaf)) (acc : List (String × JLeaf) × ℚ) :
    List (String × JLeaf) × ℚ :=
  match jlookup pd "driver_age" with
  | some (JLeaf.num age) =>
      (acc.1 ++ [("driver_age", JLeaf.num age)],
       if age < 25 then acc.2 * ((3 : ℚ)/2)
       else if 65 < age then acc.2 * ((6 : ℚ)/5)
       else acc.2 * ((9 : ℚ)/10))
  | _ => acc

/-- The `driving_experience` block: `< 3 → ×1.3`, `> 10 → ×0.8`, otherwise
no multiplication. -/
def drivingExperienceStep (pd : List (String × JLeaf)) (acc : List (String × JLeaf) × ℚ) :
    List (String × JLeaf) × ℚ :=
  match jlookup pd "driving_experience" with
  | some (JLeaf.num e) =>
      (acc.1 ++ [("driving_experience", JLeaf.num e)],
       if e < 3 then acc.2 * ((13 : ℚ)/10)
       else if 10 < e then acc.2 * ((4 : ℚ)/5)
       else acc.2)
  | _ => acc

/-- The `car_type` block (Go `switch`): `sports ×1.8`, `suv ×1.1`,
`sedan ×0.9`, `electric ×0.7`, any other string leaves the score alone;
the factor is recorded whenever the string assertion succeeds. -/
def carTypeStep (pd : List (String × JLeaf)) (acc : List (String × JLeaf) × ℚ) :
    List (String × JLeaf) × ℚ :=
  match jlookup pd "car_type" with
  | some (JLeaf.str ct) =>
      (acc.1 ++ [("car_type", JLeaf.str ct)],
       if ct = "sports" then acc.2 * ((9 : ℚ)/5)
       else if ct = "suv" then acc.2 * ((11 : ℚ)/10)
       else if ct = "sedan" then acc.2 * ((9 : ℚ)/10)
       else if ct = "electric" then acc.2 * ((7 : ℚ)/10)
       else acc.2)
  | _ => acc

/-- The `region` block (Go `switch` with `default`): `moscow ×1.4`,
`spb ×1.2`, any other present string `×0.8`. -/
def regionStep (pd : List (String × JLeaf)) (acc : List (String × JLeaf) × ℚ) :
    List (String × JLeaf) × ℚ :=
  match jlookup pd "region" with
  | some (JLeaf.str r) =>
      (acc.1 ++ [("region", JLeaf.str r)],
       if r = "moscow" then acc.2 * ((7 : ℚ)/5)
       else if r = "spb" then acc.2 * ((6 : ℚ)/5)
       else acc.2 * ((4 : ℚ)/5))
  | _ => acc

/-- The `accidents_count` block: multiply by `1.3^N`. -/
def accidentsStep (pd : List (String × JLeaf)) (acc : List (String × JLeaf) × ℚ) :
    List (String × JLeaf) × ℚ :=
  match jlookup pd "accidents_count" with
  | some (JLeaf.num n) =>
      (acc.1 ++ [("accidents_count", JLeaf.num n)], acc.2 * powAccidents n)
  | _ => acc

/-- Method `Handler.calculatePremium`: base premium 1000, risk score accumulated
through the five factor blocks in source order starting from 1.0, final
premium `math.Round(base*score*100)/100` (the trailing `json.Marshal` of
the risk factors cannot fail on these values, so the Go `error` result is
always `nil` and is omitted). -/
def calculatePremium (policyData : List (String × JLeaf)) : PremiumCalculation :=
  let basePremium : ℚ := 1000
  let acc := accidentsStep policyData
    (regionStep policyData
      (carTypeStep policyData
        (drivingExperienceStep policyData
          (driverAgeStep policyData ([], 1)))))
  { basePremium := basePremium
    riskScore := acc.2
    riskFactors := acc.1
    finalPremium := round2 (basePremium * acc.2) }

/-! Spec-side premium formula, written from the specification's words
(§4.7): a list of optional multipliers, one per input, each `none` when
its input is missing (or, for `driving_experience`, in the no-multiplier
middle band), with `final = round(base × risk_score, 2)`. Used only to
compare against `calculatePremium`. -/

/-- Spec multiplier for `driver_age`: `< 25 → ×1.5; > 65 → ×1.2; else
×0.9. Missing → no multiplier.` -/
def specDriverAgeFactor (pd : List (String × JLeaf)) : Option ℚ :=
  match jlookup pd "driver_age" with
  | some (JLeaf.num a) =>
      some (if a < 25 then (3 : ℚ)/2 else if 65 < a then (6 : ℚ)/5 else (9 : ℚ)/10)
  | _ => none

/-- Spec multiplier for `driving_experience`: `< 3 → ×1.3; > 10 → ×0.8;
else no multiplier.` -/
def specExperienceFactor (pd : List (String × JLeaf)) : Option ℚ :=
  match jlookup pd "driving_experience" with
  | some (JLeaf.num e) =>
      if e < 3 then some ((13 : ℚ)/10) else if 10 < e then some ((4 : ℚ)/5) else none
  | _ => none

/-- Spec multiplier for `car_type`: `sports→×1.8, suv→×1.1, sedan→×0.9,
electric→×0.7, other/missing → no multiplier.` -/
def specCarTypeFactor (pd : List (String × JLeaf)) : Option ℚ :=
  match jlookup pd "car_type" with
  | some (JLeaf.str ct) =>
      if ct = "sports" then some ((9 : ℚ)/5)
      else if ct = "suv" then some ((11 : ℚ)/10)
      else if ct = "sedan" then some ((9 : ℚ)/10)
      else if ct = "electric" then some ((7 : ℚ)/10)
      else none
  | _ => none

/-- Spec multiplier for `region`: `moscow→×1.4, spb→×1.2, other → ×0.8.
Missing → no multiplier.` -/
def specRegionFactor (pd : List (String × JLeaf)) : Option ℚ :=
  match jlookup pd "region" with
  | some (JLeaf.str r) =>
      some (if r = "moscow" then (7 : ℚ)/5 else if r = "spb" then (6 : ℚ)/5 else (4 : ℚ)/5)
  | _ => none

/-- Spec multiplier for `accidents_count` (N): `×1.3^N`. -/
def specAccidentsFactor (pd : List (String × JLeaf)) : Option ℚ :=
  match jlookup pd "accidents_count" with
  | some (JLeaf.num n) => some (powAccidents n)
  | _ => none

/-- Spec risk score: the product of the multipliers that are present,
applied in sequence to a running score initialized to 1.0 (a skipped
multiplier contributes the factor 1). -/
def specRiskScore (pd : List (String × JLeaf)) : ℚ :=
  (([specDriverAgeFactor pd, specExperienceFactor pd, specCarTypeFactor pd,
     specRegionFactor pd, specAccidentsFactor pd].map (fun o => o.getD 1)).prod)

/-- Spec final premium: `round(1000.00 × risk_score, 2)` with
half-away-from-zero rounding. -/
def specFinalPremium (pd : List (String × JLeaf)) : ℚ :=
  round2 (1000 * specRiskScore pd)

/-! ## Underwriting handler state and dispatch -/

/-- A row of `insurance.premium_calculations` as the underwriting handler
inserts it (the generated uuid `id` is irrelevant to every claim and
omitted; `calculated_at` order is the insertion order of the row list). -/
structure PremiumRow where
  policy_id : String
  base_premium : ℚ
  risk_factors : List (String × JLeaf)
  final_premium : ℚ
  calculation_version : ℕ
  deriving DecidableEq

/-- The `premium_calculations` table, rows in `calculated_at` order. -/
abbrev UnderwritingDB := List PremiumRow

/-- The query `SELECT COALESCE(MAX(calculation_version), 0) ... WHERE policy_id = $1`. -/
def maxCalculationVersion (db : UnderwritingDB) (pid : String) : ℕ :=
  List.foldl (fun acc r => if r.policy_id = pid then max acc r.calculation_version else acc) 0 db

/-- Method `Handler.handlePolicyCreated` (underwriting): project the `policy`
object out of `event_data` (error if absent or not an object), price it,
and insert a row with `calculation_version = 1`. -/
def handlePolicyCreated (event : PolicyEvent) (db : UnderwritingDB) :
    Option GoErr × UnderwritingDB :=
  match asObj (jlookup event.event_data "policy") with
  | none => (some (GoErr.other "invalid policy data in event"), db)
  | some pd =>
      let calcRes := calculatePremium pd
      (none, db ++ [{ policy_id := event.policy_id, base_premium := calcRes.basePremium,
                      risk_factors := calcRes.riskFactors, final_premium := calcRes.finalPremium,
                      calculation_version := 1 }])

/-- Method `Handler.handlePolicyRenewed` (underwriting): project the `policy`
object, read the previous max version, price, and insert with
`previous + 1`. -/
def handlePolicyRenewed (event : PolicyEvent) (db : UnderwritingDB) :
    Option GoErr × UnderwritingDB :=
  match asObj (jlookup event.event_data "policy") with
  | none => (some (GoErr.other "invalid policy data in event"), db)
  | some pd =>
      let previousVersion := maxCalculationVersion db event.policy_id
      let calcRes := calculatePremium pd
      (none, db ++ [{ policy_id := event.policy_id, base_premium := calcRes.basePremium,
                      risk_factors := calcRes.riskFactors, final_premium := calcRes.finalPremium,
                      calculation_version := previousVersion + 1 }])

/-- Method `Handler.Handle` (underwriting): decode the envelope (decode failure
is an error), then dispatch on `event_type`; `cancelled` and unknown
types succeed without touching the database. -/
def underwritingHandle (value : WireValue) (db : UnderwritingDB) :
    Option GoErr × UnderwritingDB :=
  match decodePolicyEvent value with
  | none => (some (GoErr.other "failed to unmarshal event"), db)
  | some event =>
      if event.event_type = "created" then handlePolicyCreated event db
      else if event.event_type = "renewed" then handlePolicyRenewed event db
      else if event.event_type = "cancelled" then (none, db)
      else (none, db)

/-- The `calculation_version` column of a policy's rows, in
`calculated_at` (insertion) order. -/
def versionsFor (db : UnderwritingDB) (pid : String) : List ℕ :=
  (db.filter (fun r => r.policy_id == pid)).map (fun r => r.calculation_version)

/-- The spec's per-policy version invariant: the versions form the
contiguous sequence `1..N` in `calculated_at` order. -/
def contiguousVersions (l : List ℕ) : Prop :=
  l = List.range' 1 l.length

/-! ## Retry middleware (`pkg/kafka/middleware.go`) -/

/-- Outcome of `RetryMiddleware.Process`: success, the bare `ctx.Err()`
returned from the cancellation-aware sleep, or the final
`fmt.Errorf("failed after %d attempts: %w", maxRetries+1, lastErr)`
wrapper (which always records `maxRetries+1` regardless of how many
attempts actually ran). -/
inductive RetryOutcome where
  | success
  | ctxAborted (e : GoErr)
  | failed (attempts : ℕ) (last : Option GoErr)
  deriving DecidableEq

/-- The `for attempt := 0; attempt <= maxRetries; attempt++` loop of
`RetryMiddleware.Process`. `ctxDone k` is what `ctx.Done()` reports during
the sleep before attempt `k` (`some e` = context finished with `ctx.Err()
= e`); `next k` is the downstream result of the k-th invocation. The
second component counts invocations of `next` (attempts actually made);
`fuel` is the number of loop iterations remaining, `mr + 1` at entry. -/
def retryAux (mr : ℕ) (ctxDone next : ℕ → Option GoErr) :
    ℕ → ℕ → Option GoErr → RetryOutcome × ℕ
  | _, 0, last => (RetryOutcome.failed (mr + 1) last, 0)
  | attempt, fuel + 1, _last =>
      match (if 0 < attempt then ctxDone attempt else none) with
      | some e => (RetryOutcome.ctxAborted e, 0)
      | none =>
          match next attempt with
          | none => (RetryOutcome.success, 1)
          | some e =>
              if isRetryableError e then
                let r := retryAux mr ctxDone next (attempt + 1) fuel (some e)
                (r.1, r.2 + 1)
              else (RetryOutcome.failed (mr + 1) (some e), 1)

/-- Method `RetryMiddleware.Process` with `maxRetries = mr`: run the attempt
loop from attempt 0 with `mr + 1` iterations available. -/
def retryMiddlewareProcess (mr : ℕ) (ctxDone next : ℕ → Option GoErr) :
    RetryOutcome × ℕ :=
  retryAux mr ctxDone next 0 (mr + 1) none

/-! ## Consumer framework (`ConsumeClaim`, DLQ offload) -/

/-- A delivered `sarama.ConsumerMessage`. -/
structure ConsumerMessage where
  topic : String
  partition : ℤ
  offset : ℤ
  key : String
  value : WireValue
  deriving DecidableEq

/-- A DLQ record as `sendToDLQ` builds it (field for field). -/
structure DLQMessage where
  original_topic : String
  original_partition : ℤ
  original_offset : ℤ
  original_key : String
  original_value : WireValue
  error : GoErr
  timestamp : ℤ
  deriving DecidableEq

/-- Observable consumer-side state: the offsets marked on the group
session (in mark order) and the contents of the DLQ topic. -/
structure ConsumerState where
  marked : List (String × ℤ × ℤ)
  dlq : List DLQMessage
  deriving DecidableEq

/-- Method `Consumer.sendToDLQ`: build the DLQ record from the failed message and
send it through the sync producer; a send failure is only logged
(`json.Marshal` of the record cannot fail). `sendFails` is whether the
sync producer reports an error for this send. -/
def sendToDLQ (sendFails : Bool) (now : ℤ) (m : ConsumerMessage) (e : GoErr)
    (dlq : List DLQMessage) : List DLQMessage :=
  if sendFails then dlq
  else dlq ++ [{ original_topic := m.topic, original_partition := m.partition,
                 original_offset := m.offset, original_key := m.key,
                 original_value := m.value, error := e, timestamp := now }]

/-- One iteration of `Consumer.ConsumeClaim` for a delivered message:
run the middleware chain (`process m` is the outermost wrapper's result),
offload to the DLQ on error when a DLQ topic is configured, then
unconditionally `MarkOffset(topic, partition, offset+1)`. -/
def consumeClaimStep (dlqTopic : String) (process : ConsumerMessage → Option GoErr)
    (dlqSendFails : ConsumerMessage → Bool) (now : ℤ)
    (st : ConsumerState) (m : ConsumerMessage) : ConsumerState :=
  let afterDLQ :=
    match process m with
    | some e =>
        if dlqTopic = "" then st
        else { st with dlq := sendToDLQ (dlqSendFails m) now m e st.dlq }
    | none => st
  { afterDLQ with marked := afterDLQ.marked ++ [(m.topic, m.partition, m.offset + 1)] }

/-- Method `Consumer.ConsumeClaim` over the sequence of messages delivered on a
claim before the stream closes, starting from an empty session state. -/
def consumeClaim (dlqTopic : String) (process : ConsumerMessage → Option GoErr)
    (dlqSendFails : ConsumerMessage → Bool) (now : ℤ)
    (msgs : List ConsumerMessage) : ConsumerState :=
  msgs.foldl (consumeClaimStep dlqTopic process dlqSendFails now) { marked := [], dlq := [] }

/-! ## Producer (`Producer.PublishPolicyEvent`) -/

/-- A row of `insurance.policy_events` (the outbox / dedup ledger). -/
structure LedgerRow where
  id : String
  policy_id : String
  event_type : String
  event_data : List (String × JVal)
  processed_at : ℤ
  kafka_topic : String
  deriving DecidableEq

/-- A message handed to the async producer's input channel. -/
structure BrokerMessage where
  topic : String
  key : String
  value : PolicyEvent
  headers : List (String × String)
  deriving DecidableEq

/-- Producer-side observable state: the `policy_events` ledger and the
stream of messages enqueued on the broker input channel. -/
structure ProducerState where
  ledger : List LedgerRow
  broker : List BrokerMessage
  deriving DecidableEq

/-- Method `Producer.PublishPolicyEvent`: fill `id` (fresh uuid) and `timestamp`
(now) if empty/zero; inside a DB transaction check the ledger for the id
and return success untouched if found; otherwise enqueue the broker
message, sleep a fixed 100 ms (no ack correlation whatsoever — broker
ack errors are only logged by `handleErrors`), insert the ledger row and
commit. The DB calls and the channel send are modelled as succeeding;
nothing in the control flow consults the broker ack. -/
def publishPolicyEvent (freshId : String) (now : ℤ) (event : PolicyEvent)
    (s : ProducerState) : Option GoErr × ProducerState :=
  let e1 := if event.id = "" then { event with id := freshId } else event
  let e2 := if e1.timestamp = 0 then { e1 with timestamp := now } else e1
  if s.ledger.any (fun r => r.id == e2.id) then
    (none, s)
  else
    let message : BrokerMessage :=
      { topic := "auto.events", key := e2.policy_id, value := e2,
        headers := [("event_id", e2.id), ("event_type", e2.event_type),
                    ("source", e2.source)] }
    (none,
     { ledger := s.ledger ++ [{ id := e2.id, policy_id := e2.policy_id,
                                event_type := e2.event_type, event_data := e2.event_data,
                                processed_at := e2.timestamp, kafka_topic := "auto.events" }],
       broker := s.broker ++ [message] })

/-- Method `Producer.handleErrors`: drains the async producer's error stream and
logs each failed send; it changes no state. -/
def handleErrors (s : ProducerState) (_failed : BrokerMessage) (_e : GoErr) : ProducerState :=
  s

/-- Number of ledger rows bearing a given event id. -/
def ledgerCount (s : ProducerState) (eventId : String) : ℕ :=
  s.ledger.countP (fun r => r.id == eventId)

/-! ## Billing handler (`services/billing/handler.go`) -/

/-- A row of `insurance.billing_records` as `saveBillingRecord` writes it
(a zero `DueDate` and a nil `PaidAt` are inserted as SQL NULL, hence
`Option`); `created_at` order is the insertion order of the row list. -/
structure BillingRecord where
  id : String
  policy_id : String
  amount : ℚ
  billing_type : String
  status : String
  due_date : Option ℤ
  created_at : ℤ
  paid_at : Option ℤ
  deriving DecidableEq

/-- The `billing_records` table, rows in `created_at` order. -/
abbrev BillingDB := List BillingRecord

/-- The query `SELECT final_premium FROM premium_calculations WHERE policy_id = $1
ORDER BY calculated_at DESC LIMIT 1`. -/
def latestFinalPremium (premiums : UnderwritingDB) (pid : String) : Option ℚ :=
  ((premiums.filter (fun r => r.policy_id == pid)).getLast?).map
    (fun r => r.final_premium)

/-- The query `SELECT id, amount, paid_at FROM billing_records WHERE policy_id = $1
AND status = 'paid' AND billing_type = 'premium' ORDER BY created_at DESC
LIMIT 1`. -/
def latestPaidPremiumRecord (db : BillingDB) (pid : String) : Option BillingRecord :=
  (db.filter (fun r =>
    r.policy_id == pid && r.status == "paid" && r.billing_type == "premium")).getLast?

/-- Duration of 24 hours in nanoseconds. -/
def dayNs : ℤ := 86400000000000

/-- Method `Handler.calculateRefund`: `policyDuration = 365 * 24h`;
`timeUsed = cancelledAt − paidAt`; zero once the duration is used up,
otherwise `float64(int(originalAmount * unusedRatio * 100)) / 100`. -/
def calculateRefund (originalAmount : ℚ) (paidAt cancelledAt : ℤ) : ℚ :=
  let policyDuration : ℤ := 365 * dayNs
  let timeUsed : ℤ := cancelledAt - paidAt
  if policyDuration ≤ timeUsed then 0
  else trunc2 (originalAmount * (((policyDuration - timeUsed : ℤ) : ℚ) / (policyDuration : ℚ)))

/-- Method `Handler.handlePolicyCreated` (billing): read the latest premium for
the policy (no rows → warn and skip), then insert a pending `premium`
record due in 30 days. -/
def billingHandleCreated (event : PolicyEvent) (premiums : UnderwritingDB)
    (db : BillingDB) (freshId : String) (now : ℤ) : Option GoErr × BillingDB :=
  match latestFinalPremium premiums event.policy_id with
  | none => (none, db)
  | some finalPremium =>
      (none, db ++ [{ id := freshId, policy_id := event.policy_id, amount := finalPremium,
                      billing_type := "premium", status := "pending",
                      due_date := some (now + 30 * dayNs), created_at := now,
                      paid_at := none }])

/-- Method `Handler.handlePolicyRenewed` (billing): as for `created` but the
record is due in 15 days. -/
def billingHandleRenewed (event : PolicyEvent) (premiums : UnderwritingDB)
    (db : BillingDB) (freshId : String) (now : ℤ) : Option GoErr × BillingDB :=
  match latestFinalPremium premiums event.policy_id with
  | none => (none, db)
  | some finalPremium =>
      (none, db ++ [{ id := freshId, policy_id := event.policy_id, amount := finalPremium,
                      billing_type := "premium", status := "pending",
                      due_date := some (now + 15 * dayNs), created_at := now,
                      paid_at := none }])

/-- Method `Handler.processRefund`: `UPDATE billing_records SET status = 'paid',
paid_at = $1 WHERE id = $2`. -/
def processRefund (db : BillingDB) (refundId : String) (now : ℤ) : BillingDB :=
  db.map (fun r => if r.id == refundId then { r with status := "paid", paid_at := some now } else r)

/-- Method `Handler.handlePolicyCancelled` (billing): find the latest paid
premium (none → no-op), compute the pro-rata refund from its `paid_at`
(`sql.NullTime` reads NULL as the zero time) and the event timestamp;
a non-positive refund is a no-op, otherwise insert a pending `refund`
record and immediately process it to `paid`. -/
def billingHandleCancelled (event : PolicyEvent) (db : BillingDB)
    (freshId : String) (now : ℤ) : Option GoErr × BillingDB :=
  match latestPaidPremiumRecord db event.policy_id with
  | none => (none, db)
  | some last =>
      let refundAmount := calculateRefund last.amount (last.paid_at.getD 0) event.timestamp
      if refundAmount ≤ 0 then (none, db)
      else
        let db1 := db ++ [{ id := freshId, policy_id := event.policy_id,
                            amount := refundAmount, billing_type := "refund",
                            status := "pending", due_date := none,
                            created_at := now, paid_at := none }]
        (none, processRefund db1 freshId now)

/-- Method `Handler.Handle` (billing): decode the envelope (failure is an
error), then dispatch on `event_type`; unknown types succeed without
touching the database. -/
def billingHandle (value : WireValue) (premiums : UnderwritingDB) (db : BillingDB)
    (freshId : String) (now : ℤ) : Option GoErr × BillingDB :=
  match decodePolicyEvent value with
  | none => (some (GoErr.other "failed to unmarshal event"), db)
  | some event =>
      if event.event_type = "created" then billingHandleCreated event premiums db freshId now
      else if event.event_type = "renewed" then billingHandleRenewed event premiums db freshId now
      else if event.event_type = "cancelled" then billingHandleCancelled event db freshId now
      else (none, db)

/-- The §3 billing invariant: `paid_at` non-null iff `status = paid`. -/
def billingInvariant (db : BillingDB) : Prop :=
  ∀ r ∈ db, (r.paid_at ≠ none ↔ r.status = "paid")

/-! ## Helper lemmas: each source factor block multiplies the running risk
score by the corresponding spec multiplier (1 when skipped) -/

lemma driverAgeStep_snd (pd : List (String × JLeaf)) (acc : List (String × JLeaf) × ℚ) :
    (driverAgeStep pd acc).2 = acc.2 * (specDriverAgeFactor pd).getD 1 := by
  unfold driverAgeStep specDriverAgeFactor
  rcases jlookup pd "driver_age" with _ | l
  · simp
  · cases l <;> simp <;> split_ifs <;> simp

lemma drivingExperienceStep_snd (pd : List (String × JLeaf)) (acc : List (String × JLeaf) × ℚ) :
    (drivingExperienceStep pd acc).2 = acc.2 * (specExperienceFactor pd).getD 1 := by
  unfold drivingExperienceStep specExperienceFactor
  rcases jlookup pd "driving_experience" with _ | l
  · simp
  · cases l <;> simp <;> split_ifs <;> simp

lemma carTypeStep_snd (pd : List (String × JLeaf)) (acc : List (String × JLeaf) × ℚ) :
    (carTypeStep pd acc).2 = acc.2 * (specCarTypeFactor pd).getD 1 := by
  unfold carTypeStep specCarTypeFactor
  rcases jlookup pd "car_type" with _ | l
  · simp
  · cases l <;> simp <;> split_ifs <;> simp

lemma regionStep_snd (pd : List (String × JLeaf)) (acc : List (String × JLeaf) × ℚ) :
    (regionStep pd acc).2 = acc.2 * (specRegionFactor pd).getD 1 := by
  unfold regionStep specRegionFactor
  rcases jlookup pd "region" with _ | l
  · simp
  · cases l <;> simp <;> split_ifs <;> simp

lemma accidentsStep_snd (pd : List (String × JLeaf)) (acc : List (String × JLeaf) × ℚ) :
    (accidentsStep pd acc).2 = acc.2 * (specAccidentsFactor pd).getD 1 := by
  unfold accidentsStep specAccidentsFactor
  rcases jlookup pd "accidents_count" with _ | l
  · simp
  · cases l <;> simp

lemma calculatePremium_riskScore (pd : List (String × JLeaf)) :
    (calculatePremium pd).riskScore = specRiskScore pd := by
  unfold calculatePremium specRiskScore
  simp only [accidentsStep_snd, regionStep_snd, carTypeStep_snd,
    drivingExperienceStep_snd, driverAgeStep_snd, List.map_cons, List.map_nil,
    List.prod_cons, List.prod_nil]
  ring

lemma calculatePremium_final_eq_spec (pd : List (String × JLeaf)) :
    (calculatePremium pd).finalPremium = specFinalPremium pd := by
  have h := calculatePremium_riskScore pd
  unfold calculatePremium specFinalPremium at *
  simp only at h ⊢
  rw [h]

/-! ## Claim theorems -/

/-- C3: for every policy data mapping, the computed premium equals the
spec's deterministic formula — base 1000.00, a risk score starting at 1.0
multiplied in sequence by the driver age, driving experience, car type,
region and accidents (1.3^N) multipliers with each skipped when its
input is missing, and `final_premium = round(base × risk_score, 2)` with
half-away-from-zero rounding; in particular all inputs missing yields
1000.00 and age 30 / 10 years experience / sedan / moscow / 0 accidents
yields 1134.00. -/
theorem premium_matches_spec_formula :
    (∀ pd : List (String × JLeaf), (calculatePremium pd).finalPremium = specFinalPremium pd)
    ∧ (calculatePremium []).finalPremium = 1000
    ∧ (calculatePremium
        [("driver_age", JLeaf.num 30), ("driving_experience", JLeaf.num 10),
         ("car_type", JLeaf.str "sedan"), ("region", JLeaf.str "moscow"),
         ("accidents_count", JLeaf.num 0)]).finalPremium = 1134 := by
  refine ⟨calculatePremium_final_eq_spec, ?_, ?_⟩
  · rw [calculatePremium_final_eq_spec]
    simp [specFinalPremium, specRiskScore, specDriverAgeFactor, specExperienceFactor,
      specCarTypeFactor, specRegionFactor, specAccidentsFactor, jlookup, powAccidents]
    norm_num [round2, goRound]
  · rw [calculatePremium_final_eq_spec]
    simp [specFinalPremium, specRiskScore, specDriverAgeFactor, specExperienceFactor,
      specCarTypeFactor, specRegionFactor, specAccidentsFactor, jlookup, powAccidents]
    norm_num [round2, goRound]

/-- C10: for every `created` or `renewed` event whose `event_data` has no
`policy` key mapping to a JSON object, the underwriting `Handle` returns
the `invalid policy data in event` error (not the unknown-event-type
success path) and leaves the premium table untouched. -/
theorem underwriting_missing_policy_is_error (ev : PolicyEvent) (db : UnderwritingDB)
    (hty : ev.event_type = "created" ∨ ev.event_type = "renewed")
    (hpol : asObj (jlookup ev.event_data "policy") = none) :
    underwritingHandle (WireValue.encoded ev) db
      = (some (GoErr.other "invalid policy data in event"), db) := by
  rcases hty with h | h <;>
    simp [underwritingHandle, decodePolicyEvent, h, handlePolicyCreated,
      handlePolicyRenewed, hpol]

/-- Witness for C10: a `created` event with empty `event_data` is rejected
with the invalid-policy-data error and no database write. -/
theorem underwriting_missing_policy_is_error_witness :
    underwritingHandle
        (WireValue.encoded
          { id := "e1", policy_id := "p1", event_type := "created", event_data := [],
            timestamp := 1, source := "gateway", version := "1.0" }) []
      = (some (GoErr.other "invalid policy data in event"), []) :=
  underwriting_missing_policy_is_error _ [] (Or.inl rfl) rfl

/-- A well-formed `created` envelope (empty pricing inputs) used to
exercise replay behaviour. -/
def sampleCreatedEvent : PolicyEvent :=
  { id := "e1", policy_id := "p1", event_type := "created",
    event_data := [("policy", JVal.obj [])], timestamp := 1,
    source := "gateway", version := "1.0" }

/-- C4 (refutation on the code): delivering the same `created` event twice
— an at-least-once replay — inserts two rows both carrying
`calculation_version = 1`, so the versions stored for the policy are
`[1, 1]`, which is not the contiguous sequence `1..2`. -/
theorem pricing_versions_not_contiguous_on_replay :
    versionsFor (underwritingHandle (WireValue.encoded sampleCreatedEvent)
        (underwritingHandle (WireValue.encoded sampleCreatedEvent) []).2).2 "p1" = [1, 1]
    ∧ ¬ contiguousVersions [1, 1] := by
  constructor
  · rfl
  · intro h
    simp only [contiguousVersions] at h
    exact absurd h (by decide)

/-- C6 (refutation on the code): a message whose value fails to decode
produces a plain wrapped error that `isRetryableError` classifies as
retryable, so the retry middleware re-attempts it; with the default
`maxRetries = 3` the decode error is attempted 4 times before the wrapped
failure is handed to the DLQ path — it is not routed directly. -/
theorem decode_error_is_retried :
    underwritingHandle (WireValue.malformed "not-json") []
        = (some (GoErr.other "failed to unmarshal event"), [])
    ∧ isRetryableError (GoErr.other "failed to unmarshal event") = true
    ∧ retryMiddlewareProcess 3 (fun _ => none)
        (fun _ => some (GoErr.other "failed to unmarshal event"))
        = (RetryOutcome.failed 4 (some (GoErr.other "failed to unmarshal event")), 4) := by
  exact ⟨rfl, rfl, by decide⟩

/-! ## Retry middleware lemmas -/

lemma retryAux_count_le (mr : ℕ) (c n : ℕ → Option GoErr) :
    ∀ (fuel attempt : ℕ) (last : Option GoErr),
      (retryAux mr c n attempt fuel last).2 ≤ fuel := by
  intro fuel
  induction fuel with
  | zero => intro attempt last; simp [retryAux]
  | succ f ih =>
      intro attempt last
      unfold retryAux
      cases hctx : (if 0 < attempt then c attempt else none) with
      | some e => simp
      | none =>
          simp only
          cases hn : n attempt with
          | none => simp [Nat.succ_le_succ (Nat.zero_le f)]
          | some e =>
              by_cases hr : isRetryableError e
              · simp only [hr, if_true]
                exact Nat.succ_le_succ (ih (attempt + 1) (some e))
              · simp [hr, Nat.succ_le_succ (Nat.zero_le f)]

lemma retryAux_exhaust (mr : ℕ) (c n : ℕ → Option GoErr)
    (hc : ∀ k, c k = none)
    (hn : ∀ k, k ≤ mr → ∃ e, n k = some e ∧ isRetryableError e = true) :
    ∀ (fuel attempt : ℕ) (last : Option GoErr),
      attempt + fuel = mr + 1 →
      last = (if attempt = 0 then none else n (attempt - 1)) →
      retryAux mr c n attempt fuel last
        = (RetryOutcome.failed (mr + 1) (n mr), fuel) := by
  intro fuel
  induction fuel with
  | zero =>
      intro attempt last htot hlast
      have ha : attempt = mr + 1 := by omega
      have hne : ¬ attempt = 0 := by omega
      rw [if_neg hne] at hlast
      subst ha
      simp only [retryAux, hlast, Nat.add_sub_cancel]
  | succ f ih =>
      intro attempt last htot hlast
      have hle : attempt ≤ mr := by omega
      obtain ⟨e, hne, hre⟩ := hn attempt hle
      have hctx : (if 0 < attempt then c attempt else none) = none := by
        split <;> simp [hc]
      unfold retryAux
      rw [hctx]
      simp only [hne, hre, if_true]
      rw [ih (attempt + 1) (some e) (by omega) (by simp [hne])]

lemma retryMiddlewareProcess_nonretryable (mr : ℕ) (c n : ℕ → Option GoErr)
    (e : GoErr) (h0 : n 0 = some e) (hnr : isRetryableError e = false) :
    retryMiddlewareProcess mr c n = (RetryOutcome.failed (mr + 1) (some e), 1) := by
  unfold retryMiddlewareProcess retryAux
  simp [h0, hnr]

lemma retryMiddlewareProcess_ctx_abort (mr : ℕ) (c n : ℕ → Option GoErr)
    (e : GoErr) (hmr : 0 < mr) (hc1 : c 1 = some e)
    (h0 : ∃ e0, n 0 = some e0 ∧ isRetryableError e0 = true) :
    retryMiddlewareProcess mr c n = (RetryOutcome.ctxAborted e, 1) := by
  obtain ⟨e0, hn0, hr0⟩ := h0
  obtain ⟨m, rfl⟩ : ∃ m, mr = m + 1 := ⟨mr - 1, by omega⟩
  unfold retryMiddlewareProcess retryAux
  simp only [Nat.lt_irrefl, if_false, hn0, hr0, if_true]
  unfold retryAux
  simp [hc1]

/-- C5: the retry middleware makes at most `max_retries + 1` attempts;
exactly cancellation and deadline-exceeded errors are non-retryable and
every other error is retryable; a non-retryable error stops after its
single attempt; when the context never fires and every attempt fails with
a retryable error, all `max_retries + 1` attempts run and the last error
is returned wrapped with the attempt count; the between-attempt sleep is
cancellation-aware — a finished context aborts with `ctx.Err()` before
the next attempt runs. -/
theorem retry_middleware_policy (mr : ℕ) (ctxDone next : ℕ → Option GoErr) :
    (retryMiddlewareProcess mr ctxDone next).2 ≤ mr + 1
    ∧ (∀ e : GoErr, isRetryableError e = false
        ↔ (e = GoErr.canceled ∨ e = GoErr.deadlineExceeded))
    ∧ (∀ e : GoErr, next 0 = some e → isRetryableError e = false →
        retryMiddlewareProcess mr ctxDone next
          = (RetryOutcome.failed (mr + 1) (some e), 1))
    ∧ ((∀ k, ctxDone k = none) →
        (∀ k, k ≤ mr → ∃ e, next k = some e ∧ isRetryableError e = true) →
        retryMiddlewareProcess mr ctxDone next
          = (RetryOutcome.failed (mr + 1) (next mr), mr + 1))
    ∧ (∀ e : GoErr, 0 < mr → ctxDone 1 = some e →
        (∃ e0, next 0 = some e0 ∧ isRetryableError e0 = true) →
        retryMiddlewareProcess mr ctxDone next = (RetryOutcome.ctxAborted e, 1)) := by
  refine ⟨retryAux_count_le mr ctxDone next (mr + 1) 0 none, ?_, ?_, ?_, ?_⟩
  · intro e
    cases e <;> simp [isRetryableError]
  · intro e h0 hnr
    exact retryMiddlewareProcess_nonretryable mr ctxDone next e h0 hnr
  · intro hc hn
    exact retryAux_exhaust mr ctxDone next hc hn (mr + 1) 0 none (by omega) (by simp)
  · intro e hmr hc1 h0
    exact retryMiddlewareProcess_ctx_abort mr ctxDone next e hmr hc1 h0

/-- Witness for C5: with `maxRetries = 2`, a live context and a downstream
that always fails with a retryable error, all 3 attempts run and the last
error comes back wrapped with the attempt count. -/
theorem retry_middleware_policy_witness :
    retryMiddlewareProcess 2 (fun _ => none) (fun _ => some (GoErr.other "db timeout"))
      = (RetryOutcome.failed 3 (some (GoErr.other "db timeout")), 3) :=
  (retry_middleware_policy 2 (fun _ => none)
      (fun _ => some (GoErr.other "db timeout"))).2.2.2.1
    (fun _ => rfl)
    (fun k _ => ⟨GoErr.other "db timeout", rfl, rfl⟩)

/-! ## Consumer offset marking -/

lemma consumeClaimStep_marked (dlqTopic : String) (process : ConsumerMessage → Option GoErr)
    (dlqSendFails : ConsumerMessage → Bool) (now : ℤ)
    (st : ConsumerState) (m : ConsumerMessage) :
    (consumeClaimStep dlqTopic process dlqSendFails now st m).marked
      = st.marked ++ [(m.topic, m.partition, m.offset + 1)] := by
  cases hp : process m
  · simp [consumeClaimStep, hp]
  · by_cases hq : dlqTopic = "" <;> simp [consumeClaimStep, hp, hq]

/-- C7: for every sequence of delivered messages, every chain outcome,
every DLQ-send behaviour and any DLQ configuration, the consumer marks
exactly one offset per message, equal to `message.offset + 1`, in
delivery order — handler failures, DLQ offloads and DLQ send failures
never change or block the mark. -/
theorem consumer_marks_every_offset (dlqTopic : String)
    (process : ConsumerMessage → Option GoErr) (dlqSendFails : ConsumerMessage → Bool)
    (now : ℤ) (msgs : List ConsumerMessage) :
    (consumeClaim dlqTopic process dlqSendFails now msgs).marked
      = msgs.map (fun m => (m.topic, m.partition, m.offset + 1)) := by
  have aux : ∀ (ms : List ConsumerMessage) (st : ConsumerState),
      (ms.foldl (consumeClaimStep dlqTopic process dlqSendFails now) st).marked
        = st.marked ++ ms.map (fun m => (m.topic, m.partition, m.offset + 1)) := by
    intro ms
    induction ms with
    | nil => intro st; simp
    | cons m rest ih =>
        intro st
        simp only [List.foldl_cons, List.map_cons]
        rw [ih, consumeClaimStep_marked]
        simp
  simpa using aux msgs { marked := [], dlq := [] }

/-! ## Producer claims -/

lemma publish_found (freshId : String) (now : ℤ) (e : PolicyEvent) (s : ProducerState)
    (hid : e.id ≠ "")
    (hfound : s.ledger.any (fun r => r.id == e.id) = true) :
    publishPolicyEvent freshId now e s = (none, s) := by
  by_cases ht : e.timestamp = 0 <;>
    simp [publishPolicyEvent, hid, ht, hfound]

lemma publish_not_found_ledger (freshId : String) (now : ℤ) (e : PolicyEvent)
    (s : ProducerState) (hid : e.id ≠ "")
    (hnone : s.ledger.any (fun r => r.id == e.id) = false) :
    (publishPolicyEvent freshId now e s).2.ledger
      = s.ledger ++ [{ id := e.id, policy_id := e.policy_id, event_type := e.event_type,
                       event_data := e.event_data,
                       processed_at := if e.timestamp = 0 then now else e.timestamp,
                       kafka_topic := "auto.events" }] := by
  by_cases ht : e.timestamp = 0 <;>
    simp [publishPolicyEvent, hid, ht, hnone]

lemma publish_fst_none (freshId : String) (now : ℤ) (e : PolicyEvent) (s : ProducerState)
    (hid : e.id ≠ "") :
    (publishPolicyEvent freshId now e s).1 = none := by
  by_cases ht : e.timestamp = 0 <;>
    by_cases hf : s.ledger.any (fun r => r.id == e.id) = true <;>
      simp [publishPolicyEvent, hid, ht, hf]

/-- C1: publishing is idempotent in the event id. If the id already has a
ledger row, `publish` returns success and changes nothing (no second row,
no broker enqueue); and starting from a state with no row for the id,
`publish(e); publish(e)` returns success twice, the second call leaves
the state of the first call untouched, and exactly one ledger row for the
id exists afterwards. -/
theorem publish_idempotent (freshId freshId2 : String) (now now2 : ℤ)
    (e : PolicyEvent) (s : ProducerState) (hid : e.id ≠ "") :
    ((s.ledger.any (fun r => r.id == e.id)) = true →
      publishPolicyEvent freshId now e s = (none, s))
    ∧ (ledgerCount s e.id = 0 →
        (publishPolicyEvent freshId now e s).1 = none
        ∧ publishPolicyEvent freshId2 now2 e (publishPolicyEvent freshId now e s).2
            = (none, (publishPolicyEvent freshId now e s).2)
        ∧ ledgerCount (publishPolicyEvent freshId now e s).2 e.id = 1) := by
  refine ⟨publish_found freshId now e s hid, ?_⟩
  intro hz
  have hnone : s.ledger.any (fun r => r.id == e.id) = false := by
    rw [List.any_eq_false]
    intro r hr
    have := (List.countP_eq_zero).mp hz r hr
    simpa using this
  have hledger := publish_not_found_ledger freshId now e s hid hnone
  refine ⟨publish_fst_none freshId now e s hid, ?_, ?_⟩
  · apply publish_found freshId2 now2 e _ hid
    rw [hledger]
    simp [List.any_append]
  · unfold ledgerCount
    rw [hledger]
    simp only [List.countP_append, List.countP_cons]
    have h0 : s.ledger.countP (fun r => r.id == e.id) = 0 := hz
    simp [h0]

/-- The concrete envelope used in the producer witnesses. -/
def sampleEvent : PolicyEvent :=
  { id := "e1", policy_id := "p1", event_type := "created", event_data := [],
    timestamp := 7, source := "gateway", version := "1.0" }

/-- Witness for C1: publishing `sampleEvent` twice into an empty state
succeeds both times, the second call changes nothing, and exactly one
ledger row for `e1` exists. -/
theorem publish_idempotent_witness :
    (publishPolicyEvent "u1" 5 sampleEvent { ledger := [], broker := [] }).1 = none
    ∧ publishPolicyEvent "u2" 6 sampleEvent
        (publishPolicyEvent "u1" 5 sampleEvent { ledger := [], broker := [] }).2
        = (none, (publishPolicyEvent "u1" 5 sampleEvent { ledger := [], broker := [] }).2)
    ∧ ledgerCount (publishPolicyEvent "u1" 5 sampleEvent { ledger := [], broker := [] }).2
        sampleEvent.id = 1 :=
  (publish_idempotent "u1" "u2" 5 6 sampleEvent { ledger := [], broker := [] }
      (by decide)).2 (by decide)

/-- C2 (refutation on the code): `PublishPolicyEvent` never consults the
broker acknowledgement — it sleeps a fixed 100 ms, inserts the ledger
row and commits, returning success, while `handleErrors` merely logs a
broker nack without touching any state. Publishing `sampleEvent` succeeds
and leaves its ledger row in place even when the broker reports an error
for the very message that was enqueued. -/
theorem publish_commits_despite_broker_nack :
    (publishPolicyEvent "u1" 5 sampleEvent { ledger := [], broker := [] }).1 = none
    ∧ ledgerCount (publishPolicyEvent "u1" 5 sampleEvent { ledger := [], broker := [] }).2
        "e1" = 1
    ∧ handleErrors (publishPolicyEvent "u1" 5 sampleEvent { ledger := [], broker := [] }).2
        { topic := "auto.events", key := "p1", value := sampleEvent,
          headers := [("event_id", "e1"), ("event_type", "created"), ("source", "gateway")] }
        (GoErr.other "kafka server: request timed out")
        = (publishPolicyEvent "u1" 5 sampleEvent { ledger := [], broker := [] }).2 := by
  exact ⟨rfl, by decide, rfl⟩

/-! ## Billing claims -/

lemma billingInvariant_append (db : BillingDB) (r : BillingRecord)
    (hdb : billingInvariant db) (hr : r.paid_at ≠ none ↔ r.status = "paid") :
    billingInvariant (db ++ [r]) := by
  intro x hx
  rcases List.mem_append.mp hx with h | h
  · exact hdb x h
  · rcases List.mem_singleton.mp h with rfl
    exact hr

lemma billingInvariant_processRefund (db : BillingDB) (refundId : String) (now : ℤ)
    (hdb : billingInvariant db) :
    billingInvariant (processRefund db refundId now) := by
  intro x hx
  rcases List.mem_map.mp hx with ⟨r, hr, hmap⟩
  rw [← hmap]
  by_cases hb : r.id == refundId
  · simp [hb]
  · simp only [hb, if_false, Bool.false_eq_true]
    exact hdb r hr

/-- C9: every billing handler operation — premium inserts, refund inserts
and the refund status update — preserves the invariant that `paid_at` is
non-null exactly on rows with `status = paid`. -/
theorem billing_paid_iff_status_paid (v : WireValue) (premiums : UnderwritingDB)
    (db : BillingDB) (freshId : String) (now : ℤ)
    (hinv : billingInvariant db) :
    billingInvariant (billingHandle v premiums db freshId now).2 := by
  cases v with
  | malformed raw => simpa [billingHandle, decodePolicyEvent] using hinv
  | encoded ev =>
      simp only [billingHandle, decodePolicyEvent]
      split_ifs with h1 h2 h3
      · cases hlp : latestFinalPremium premiums ev.policy_id with
        | none => simpa [billingHandleCreated, hlp] using hinv
        | some fp =>
            simp only [billingHandleCreated, hlp]
            exact billingInvariant_append db _ hinv (by simp)
      · cases hlp : latestFinalPremium premiums ev.policy_id with
        | none => simpa [billingHandleRenewed, hlp] using hinv
        | some fp =>
            simp only [billingHandleRenewed, hlp]
            exact billingInvariant_append db _ hinv (by simp)
      · cases hlast : latestPaidPremiumRecord db ev.policy_id with
        | none => simpa [billingHandleCancelled, hlast] using hinv
        | some last =>
            simp only [billingHandleCancelled, hlast]
            split_ifs with hle
            · exact hinv
            · exact billingInvariant_processRefund _ freshId now
                (billingInvariant_append db _ hinv (by simp))
      · exact hinv

/-- The latest paid premium row used in the billing witnesses: 1200.00
paid at instant 0. -/
def paidPremiumRecord : BillingRecord :=
  { id := "b1", policy_id := "p1", amount := 1200, billing_type := "premium",
    status := "paid", due_date := some 0, created_at := 0, paid_at := some 0 }

/-- A `cancelled` envelope arriving 73 days after the premium above was
paid. -/
def cancelSampleEvent : PolicyEvent :=
  { id := "e9", policy_id := "p1", event_type := "cancelled", event_data := [],
    timestamp := 73 * dayNs, source := "gateway", version := "1.0" }

/-- Witness for C9: processing the cancellation of a policy with one paid
premium row preserves the `paid_at` / `status` invariant. -/
theorem billing_paid_iff_status_paid_witness :
    billingInvariant
      (billingHandle (WireValue.encoded cancelSampleEvent) [] [paidPremiumRecord] "r1" 99).2 :=
  billing_paid_iff_status_paid (WireValue.encoded cancelSampleEvent) [] [paidPremiumRecord]
    "r1" 99 (by
      intro r hr
      rcases List.mem_singleton.mp hr with rfl
      simp [paidPremiumRecord])

/-- C8 (counterexample to the stated figure): for a premium of 1200.00
paid exactly 73 days before cancellation the code computes
`trunc(1200 × (365−73)/365, 2) = trunc(1200 × 0.8, 2) = 960.00`, not the
959.72 the claim states — `(365−73)/365` is exactly `0.8`, so the claimed
`959.7260…` intermediate value is arithmetically impossible. -/
theorem refund_example_is_960_not_959_72 :
    calculateRefund 1200 0 (73 * dayNs) = 960
    ∧ calculateRefund 1200 0 (73 * dayNs) ≠ 95972 / 100 := by
  have h : calculateRefund 1200 0 (73 * dayNs) = 960 := by
    norm_num [calculateRefund, dayNs, trunc2, goTruncInt]
  refine ⟨h, ?_⟩
  rw [h]
  norm_num

/-- C8 (amended): for a cancellation whose latest paid premium row holds
amount `A` paid at `p`, the refund is the 2-decimal truncation of
`A × (365d − used)/365d` with `used = cancelled_at − p`; it is 0 once
`used ≥ 365d`; a non-positive refund inserts no row, and a positive one
appends exactly one `refund` row that ends `paid` with `paid_at` set; the
1200.00-paid-73-days-ago example yields 960.00. -/
theorem billing_refund_prorata (A : ℚ) (p : ℤ) (ev : PolicyEvent)
    (premiums : UnderwritingDB) (db : BillingDB) (last : BillingRecord)
    (freshId : String) (now : ℤ)
    (hev : ev.event_type = "cancelled")
    (hlast : latestPaidPremiumRecord db ev.policy_id = some last)
    (hA : last.amount = A) (hp : last.paid_at = some p)
    (hfresh : ∀ r ∈ db, r.id ≠ freshId) :
    (365 * dayNs ≤ ev.timestamp - p → calculateRefund A p ev.timestamp = 0)
    ∧ (ev.timestamp - p < 365 * dayNs →
        calculateRefund A p ev.timestamp
          = trunc2 (A * ((365 * dayNs - (ev.timestamp - p) : ℤ) : ℚ)
              / ((365 * dayNs : ℤ) : ℚ)))
    ∧ (calculateRefund A p ev.timestamp ≤ 0 →
        billingHandle (WireValue.encoded ev) premiums db freshId now = (none, db))
    ∧ (0 < calculateRefund A p ev.timestamp →
        billingHandle (WireValue.encoded ev) premiums db freshId now
          = (none, db ++ [{ id := freshId, policy_id := ev.policy_id,
                            amount := calculateRefund A p ev.timestamp,
                            billing_type := "refund", status := "paid",
                            due_date := none, created_at := now,
                            paid_at := some now }]))
    ∧ calculateRefund 1200 0 (73 * dayNs) = 960 := by
  have hdispatch : billingHandle (WireValue.encoded ev) premiums db freshId now
      = billingHandleCancelled ev db freshId now := by
    simp [billingHandle, decodePolicyEvent, hev]
  have hamount : calculateRefund last.amount (last.paid_at.getD 0) ev.timestamp
      = calculateRefund A p ev.timestamp := by
    rw [hA, hp]
    rfl
  refine ⟨?_, ?_, ?_, ?_, ?_⟩
  · intro hge
    simp only [calculateRefund]
    rw [if_pos hge]
  · intro hlt
    simp only [calculateRefund]
    rw [if_neg (not_le.mpr hlt), mul_div_assoc]
  · intro hle
    rw [hdispatch]
    simp only [billingHandleCancelled, hlast, hamount]
    rw [if_pos hle]
  · intro hpos
    rw [hdispatch]
    simp only [billingHandleCancelled, hlast, hamount]
    rw [if_neg (not_le.mpr hpos)]
    simp only [processRefund, List.map_append]
    have hdbmap : List.map
        (fun r => if r.id == freshId then { r with status := "paid", paid_at := some now } else r)
        db = db := by
      have := List.map_congr_left (l := db)
        (f := fun r => if r.id == freshId then { r with status := "paid", paid_at := some now } else r)
        (g := id) ?_
      · simpa using this
      · intro r hr
        have : ¬ (r.id == freshId) = true := by
          simpa using hfresh r hr
        simp [this]
    rw [hdbmap]
    simp
  · have h : calculateRefund 1200 0 (73 * dayNs) = 960 := by
      norm_num [calculateRefund, dayNs, trunc2, goTruncInt]
    exact h

/-- Witness for C8: cancelling the sample policy appends exactly one
refund row of 960.00 that ends `paid`. -/
theorem billing_refund_prorata_witness :
    billingHandle (WireValue.encoded cancelSampleEvent) [] [paidPremiumRecord] "r1" 99
      = (none, [paidPremiumRecord,
                { id := "r1", policy_id := "p1", amount := 960, billing_type := "refund",
                  status := "paid", due_date := none, created_at := 99,
                  paid_at := some 99 }]) := by
  have happ := billing_refund_prorata 1200 0 cancelSampleEvent [] [paidPremiumRecord]
      paidPremiumRecord "r1" 99 rfl rfl rfl rfl (by decide)
  have h960 : calculateRefund 1200 0 cancelSampleEvent.timestamp = 960 := happ.2.2.2.2
  have hres := happ.2.2.2.1 (by rw [h960]; norm_num)
  rw [h960] at hres
  simpa [cancelSampleEvent] using hres

end KafkaServes
